import Mathlib

/-!
Verification development for the chess.com online-status Telegram bot
(`main.py`).  The Python program keeps its registry in module-level
dictionaries and sets protected by a single `STATE_LOCK`; two loops
(`monitor_loop` and `handle_commands`) mutate that registry.

Shallow embedding conventions:
* Python `dict`s become insertion-ordered association lists
  (`List (String × α)`) with `alookup` / `aset` / `aerase` mirroring
  `d.get`, `d[k] = v`, `d.pop(k, None)`.
* Python `set`s become insertion-ordered duplicate-free `List String`
  with `sadd` / `List.erase` mirroring `s.add` / `s.remove`;
  iteration order of Python sets is arbitrary, so any fixed order is a
  valid determinization (all proved properties are order-insensitive).
* Values that Python may bind to `None` become `Option _`.
* The lock discipline is made observable through `Seg`ments: each
  `with STATE_LOCK:` block of the source becomes a `Seg.locked ts`
  carrying the tags of the outbound network calls issued inside it,
  and code between blocks becomes `Seg.unlocked ts`.
* Outbound message payloads are abstracted to the `Reply` / `Notif`
  datatypes (the MarkdownV2 string formatting carries no claim).
-/

/-- Lookup in an association list; mirrors Python `d.get(k)`. -/
def alookup {α : Type} : List (String × α) → String → Option α
  | [], _ => none
  | p :: rest, k => if p.1 = k then some p.2 else alookup rest k

/-- Insert-or-replace in an association list; mirrors Python `d[k] = v`
(replacement keeps the key's original position, like CPython dicts). -/
def aset {α : Type} : List (String × α) → String → α → List (String × α)
  | [], k, v => [(k, v)]
  | p :: rest, k, v => if p.1 = k then (k, v) :: rest else p :: aset rest k v

/-- Remove a key from an association list; mirrors Python `d.pop(k, None)`. -/
def aerase {α : Type} (m : List (String × α)) (k : String) : List (String × α) :=
  m.filter (fun p => p.1 != k)

/-- The keys of an association list, in order. -/
def akeys {α : Type} (m : List (String × α)) : List String :=
  m.map Prod.fst

/-- Python `set.add`: append if absent (insertion-ordered set model). -/
def sadd (l : List String) (x : String) : List String :=
  if x ∈ l then l else l ++ [x]

/-- Python `set(lst)`: first-occurrence deduplication. -/
def sdedup (l : List String) : List String :=
  l.foldl sadd []

/-- A single resolved/last-online result of `get_user_data_from_api`:
`{"uuid": ..., "last_online_unix": ...}`, each field `None` on failure. -/
structure UserData where
  uuid : Option String
  lastOnlineUnix : Option Int
deriving DecidableEq

/-- The shared mutable registry of `main.py`: `AUTHORIZED_USERS`,
`PER_USER_LIMITS`, `user_monitored`, `user_uuids`, `user_last_status`,
`user_last_seen_unix`, `LATEST_DB_MESSAGE_ID`. -/
structure RegState where
  authorizedUsers : List String
  perUserLimits : List (String × Int)
  monitored : List (String × List String)
  userUuids : List (String × String)
  userLastStatus : List (String × Option String)
  userLastSeenUnix : List (String × Option Int)
  latestDbMessageId : Option Int
deriving DecidableEq

/-- `MAX_USERNAMES_PER_USER` in `main.py`. -/
def MAX_USERNAMES_PER_USER : Int := 10

/-- A subscriber's watch set, mirroring `user_monitored.get(uid, set())`. -/
def watchSetOf (mon : List (String × List String)) (uid : String) : List String :=
  (alookup mon uid).getD []

/-- Tags classifying the outbound network calls of the program. -/
inductive NetTag
  /-- `get_user_data_from_api` called from step 2 of the monitor loop. -/
  | resolve
  /-- The batched presence request of step 4 of the monitor loop. -/
  | presence
  /-- `send_telegram_message`. -/
  | send
  /-- `get_user_data_from_api` called from the `online → offline`
  last-seen refresh in step 5 of the monitor loop. -/
  | refresh
  /-- `send_telegram_document` issued by `save_user_data`. -/
  | saveDoc
deriving DecidableEq

/-- A maximal run of execution: either inside one `with STATE_LOCK:`
block or between blocks, carrying the network calls issued during it. -/
inductive Seg
  | locked (tags : List NetTag)
  | unlocked (tags : List NetTag)
deriving DecidableEq

/-- All network-call tags issued while the state lock is held. -/
def underLockTags (segs : List Seg) : List NetTag :=
  (segs.map (fun sg => match sg with
    | .locked ts => ts
    | .unlocked _ => [])).flatten

/-- Abstracted chat replies of `handle_commands` (text formatting elided). -/
inductive Reply
  | userAuthorized
  | userUnauthorized
  | userNotFoundAuth
  | notAuthorized
  | alreadyMonitoring
  | limitReached (limit : Int)
  | added (username : String)
  | usageAdd
  | removed (username : String)
  | notInList
  | usageRemove
  | emptyList
  | monitoredList (usernames : List String)
  | statusEmpty
  | statusReport (lines : List (String × Option String × Option Int))
deriving DecidableEq

/-- One "now ONLINE" notification produced by the monitor loop. -/
structure Notif where
  chatId : String
  username : String
  lastSeen : Option Int
deriving DecidableEq

/-- One incoming Telegram update as read by `handle_commands`
(`text` is the already-stripped message text). -/
structure Incoming where
  userId : String
  chatId : String
  text : String

/-- Static configuration: `BOT_ADMIN_ID` and whether `DB_CHANNEL_ID` is set. -/
structure Cfg where
  adminId : String
  dbChannel : Bool

/-- External outcome consumed by `save_user_data`: the message id Telegram
assigns to the uploaded `db.json` document (absent on upload failure). -/
structure CmdEnv where
  saveMsgId : Option Int

/-- Python `text.split()`: split on whitespace runs, dropping empties.
(Own structural recursion so that concrete evaluation reduces in the
kernel.) -/
def wordsAux : List Char → List Char → List String
  | [], cur => if cur.isEmpty then [] else [String.mk cur.reverse]
  | c :: rest, cur =>
    if c.isWhitespace then
      if cur.isEmpty then wordsAux rest []
      else String.mk cur.reverse :: wordsAux rest []
    else wordsAux rest (c :: cur)

/-- Python `str.split()` with no argument. -/
def splitWs (t : String) : List String :=
  wordsAux t.data []

/-- Structural `String.startsWith` (Python `str.startswith`). -/
def isPrefixOfChars : List Char → List Char → Bool
  | [], _ => true
  | _ :: _, [] => false
  | a :: as, b :: bs => a == b && isPrefixOfChars as bs

/-- Python `text.startswith(p)`. -/
def startsWithS (t p : String) : Bool :=
  isPrefixOfChars p.data t.data

/-- Python `str.lower()` (per-character). -/
def lowerS (t : String) : String :=
  String.mk (t.data.map Char.toLower)

/-- The network tags `save_user_data` issues: it uploads `db.json` to the
DB channel only when `DB_CHANNEL_ID` is configured. -/
def saveTags (cfg : Cfg) : List NetTag :=
  if cfg.dbChannel then [NetTag.saveDoc] else []

/-- The pinned-message id after `save_user_data`: a successful document
upload to the DB channel records the new message id (only when truthy),
everything else leaves it alone. -/
def newDbMessageId (cfg : Cfg) (cenv : CmdEnv) (old : Option Int) : Option Int :=
  if cfg.dbChannel then
    match cenv.saveMsgId with
    | some mid => if mid ≠ 0 then some mid else old
    | none => old
  else old

/-- `save_user_data`, state part: writing `db.json` does not change the
registry; only `LATEST_DB_MESSAGE_ID` may be updated by the upload. -/
def doSave (cfg : Cfg) (cenv : CmdEnv) (s : RegState) : RegState :=
  { s with latestDbMessageId := newDbMessageId cfg cenv s.latestDbMessageId }

/-- Result of handling one incoming update in `handle_commands`. -/
structure CmdOut where
  state : RegState
  replies : List (String × Reply)
  segs : List Seg
  saves : Nat
deriving DecidableEq

/-- The admin block of `handle_commands` (lines 295-315): `/authorize`
and `/unauthorize`, recognized only for `BOT_ADMIN_ID`; execution always
falls through to the authorization check afterwards. -/
def adminPhase (cfg : Cfg) (cenv : CmdEnv) (s : RegState) (inc : Incoming) : CmdOut :=
  if inc.userId = cfg.adminId then
    if startsWithS inc.text "/authorize" then
      let parts := splitWs inc.text
      if parts.length = 2 then
        let target := parts.getD 1 ""
        let s1 := doSave cfg cenv { s with authorizedUsers := sadd s.authorizedUsers target }
        ⟨s1, [(inc.chatId, .userAuthorized)], [.locked (saveTags cfg), .unlocked [.send]], 1⟩
      else ⟨s, [], [], 0⟩
    else if startsWithS inc.text "/unauthorize" then
      let parts := splitWs inc.text
      if parts.length = 2 then
        let target := parts.getD 1 ""
        if target ∈ s.authorizedUsers then
          let s1 := { s with authorizedUsers := s.authorizedUsers.erase target,
                             monitored := aerase s.monitored target }
          ⟨doSave cfg cenv s1, [(inc.chatId, .userUnauthorized)],
            [.locked (saveTags cfg ++ [.send])], 1⟩
        else ⟨s, [(inc.chatId, .userNotFoundAuth)], [.locked [.send]], 0⟩
      else ⟨s, [], [], 0⟩
    else ⟨s, [], [], 0⟩
  else ⟨s, [], [], 0⟩

/-- The non-admin command block of `handle_commands` (lines 323-384):
`/add`, `/remove`, `/list`, `/status`. -/
def userPhase (cfg : Cfg) (cenv : CmdEnv) (s : RegState) (inc : Incoming) : CmdOut :=
  let uid := inc.userId
  let chat := inc.chatId
  if startsWithS inc.text "/add" then
    let parts := splitWs inc.text
    if parts.length = 2 then
      let username := lowerS (parts.getD 1 "")
      let mon0 := if (alookup s.monitored uid).isSome then s.monitored
                  else s.monitored ++ [(uid, [])]
      let currentSet := (alookup mon0 uid).getD []
      let limit := (alookup s.perUserLimits uid).getD MAX_USERNAMES_PER_USER
      let s0 := { s with monitored := mon0 }
      if username ∈ currentSet then
        ⟨s0, [(chat, .alreadyMonitoring)], [.locked [.send]], 0⟩
      else if (currentSet.length : Int) ≥ limit then
        ⟨s0, [(chat, .limitReached limit)], [.locked [.send]], 0⟩
      else
        let s1 := { s0 with monitored := aset s0.monitored uid (sadd currentSet username) }
        ⟨doSave cfg cenv s1, [(chat, .added username)], [.locked (saveTags cfg ++ [.send])], 1⟩
    else ⟨s, [(chat, .usageAdd)], [.unlocked [.send]], 0⟩
  else if startsWithS inc.text "/remove" then
    let parts := splitWs inc.text
    if parts.length = 2 then
      let username := lowerS (parts.getD 1 "")
      if username ∈ watchSetOf s.monitored uid then
        let mon1 := aset s.monitored uid ((watchSetOf s.monitored uid).erase username)
        let s1 := { s with monitored := mon1 }
        let s2 := if ∀ p ∈ mon1, username ∉ p.2 then
            { s1 with userUuids := aerase s1.userUuids username,
                      userLastStatus := aerase s1.userLastStatus username,
                      userLastSeenUnix := aerase s1.userLastSeenUnix username }
          else s1
        ⟨doSave cfg cenv s2, [(chat, .removed username)], [.locked (saveTags cfg ++ [.send])], 1⟩
      else ⟨s, [(chat, .notInList)], [.locked [.send]], 0⟩
    else ⟨s, [(chat, .usageRemove)], [.unlocked [.send]], 0⟩
  else if startsWithS inc.text "/list" then
    let lst := (watchSetOf s.monitored uid).mergeSort (· ≤ ·)
    if lst.isEmpty then ⟨s, [(chat, .emptyList)], [.locked [], .unlocked [.send]], 0⟩
    else ⟨s, [(chat, .monitoredList lst)], [.locked [], .unlocked [.send]], 0⟩
  else if startsWithS inc.text "/status" then
    let lst := (watchSetOf s.monitored uid).mergeSort (· ≤ ·)
    if lst.isEmpty then ⟨s, [(chat, .statusEmpty)], [.locked [.send]], 0⟩
    else
      let lines := lst.map (fun u =>
        (u, (alookup s.userLastStatus u).join, (alookup s.userLastSeenUnix u).join))
      ⟨s, [(chat, .statusReport lines)], [.locked [], .unlocked [.send]], 0⟩
  else ⟨s, [], [], 0⟩

/-- Handling of one incoming update by `handle_commands` (lines 287-384):
skip empty text, run the admin block, check authorization (replying with
the fixed denial on failure), then run the user-command block. -/
def handleCommand (cfg : Cfg) (cenv : CmdEnv) (s : RegState) (inc : Incoming) : CmdOut :=
  if inc.text = "" then ⟨s, [], [], 0⟩
  else
    let a := adminPhase cfg cenv s inc
    if inc.userId ∈ a.state.authorizedUsers then
      let u := userPhase cfg cenv a.state inc
      ⟨u.state, a.replies ++ u.replies, a.segs ++ u.segs, a.saves + u.saves⟩
    else
      ⟨a.state, a.replies ++ [(inc.chatId, .notAuthorized)], a.segs ++ [.unlocked [.send]], a.saves⟩

/-- External world of one monitor cycle: the per-username result of
`get_user_data_from_api` (deterministic within the cycle) and the
outcome of the batched presence request.  `presence = none` models a
network error, a non-200 status, or a malformed payload — all of which
abort the rest of the cycle in the same way; `some es` carries the
`(userId, status)` pairs of the `users` array. -/
structure ApiEnv where
  userData : String → UserData
  presence : Option (List (String × Option String))

/-- Python dict comprehension `{u['userId']: u for u in users}`:
last occurrence of a key wins, first occurrence fixes its position. -/
def dedupLast (es : List (String × Option String)) : List (String × Option String) :=
  es.foldl (fun d e => aset d e.1 e.2) []

/-- `{v: k for k, v in user_uuids.items()}` (line 243). -/
def reverseMap (m : List (String × String)) : List (String × String) :=
  m.foldl (fun d p => aset d p.2 p.1) []

/-- `get_all_monitored_usernames()`: the union of all watch sets
(as a duplicate-free list; Python's set iteration order is arbitrary). -/
def allMonitoredList (mon : List (String × List String)) : List String :=
  sdedup (mon.foldl (fun acc p => acc ++ p.2) [])

/-- Step 1 of `monitor_loop`: usernames without a cached UUID. -/
def needingUuid (s : RegState) : List String :=
  (allMonitoredList s.monitored).filter (fun u => (alookup s.userUuids u).isNone)

/-- Step 2 of `monitor_loop`: the successfully resolved
`(username, uuid, last_online_unix)` triples (`if data and data["uuid"]`:
`data` is always a dict, so the guard is truthiness of the uuid string). -/
def newUuidData (s : RegState) (env : ApiEnv) : List (String × String × Option Int) :=
  (needingUuid s).filterMap (fun u =>
    match (env.userData u).uuid with
    | some id => if id = "" then none else some (u, id, (env.userData u).lastOnlineUnix)
    | none => none)

/-- Step 3 of `monitor_loop`: commit newly fetched UUIDs and their
best-effort last-online values into the caches. -/
def resolveState (s : RegState) (env : ApiEnv) : RegState :=
  (newUuidData s env).foldl
    (fun st d =>
      { st with userUuids := aset st.userUuids d.1 d.2.1,
                userLastSeenUnix := aset st.userLastSeenUnix d.1 d.2.2 }) s

/-- The subscribers that currently watch `username`, read from the live
forward mapping (`for user_id, monitored_set in user_monitored.items():
if username in monitored_set`). -/
def subscribersOf (mon : List (String × List String)) (username : String) : List String :=
  mon.filterMap (fun p => if username ∈ p.2 then some p.1 else none)

/-- One iteration of the step-5 reconciliation body of `monitor_loop`
(lines 244-266), processing one `(uuid, status)` pair of the presence
response while holding the lock: fan out on a transition to `online`,
refresh last-seen on a transition away from `online` (only stored when
the reported value is truthy), always commit the new status. -/
def step5fold (mon : List (String × List String)) (rev : List (String × String))
    (ud : String → UserData) :
    RegState × List Notif × List NetTag → String × Option String →
    RegState × List Notif × List NetTag
  | (st, msgs, tags), (uuid, newStatus) =>
    match alookup rev uuid with
    | none => (st, msgs, tags)
    | some username =>
      let prev := (alookup st.userLastStatus username).join
      if newStatus = some "online" ∧ prev ≠ some "online" then
        let recips := subscribersOf mon username
        let newMsgs := recips.map (fun uid =>
          { chatId := uid, username := username,
            lastSeen := (alookup st.userLastSeenUnix username).join : Notif })
        ({ st with userLastStatus := aset st.userLastStatus username newStatus },
         msgs ++ newMsgs, tags ++ recips.map (fun _ => NetTag.send))
      else if newStatus ≠ some "online" ∧ prev = some "online" then
        let d := ud username
        let newSeen := match d.lastOnlineUnix with
          | some lo =>
            if lo ≠ 0 then aset st.userLastSeenUnix username (some lo)
            else st.userLastSeenUnix
          | none => st.userLastSeenUnix
        ({ st with userLastSeenUnix := newSeen,
                   userLastStatus := aset st.userLastStatus username newStatus },
         msgs, tags ++ [NetTag.refresh])
      else
        ({ st with userLastStatus := aset st.userLastStatus username newStatus }, msgs, tags)

/-- Result of one iteration of `monitor_loop`'s body. -/
structure CycleOut where
  state : RegState
  notifs : List Notif
  segs : List Seg

/-- One iteration of `monitor_loop` (lines 190-266): snapshot the watch
set, resolve missing UUIDs outside the lock, commit them, batch-fetch
presence outside the lock, then reconcile and notify inside the lock.
Any failure of the presence call degrades the cycle (`presence = none`).
The body is a total function: the `except Exception` handler at line 268
guarantees no failure escapes an iteration. -/
def monitorCycle (s : RegState) (env : ApiEnv) : CycleOut :=
  let allU := allMonitoredList s.monitored
  if allU.isEmpty then { state := s, notifs := [], segs := [.locked []] }
  else
    let resSeg : Seg := .unlocked ((needingUuid s).map (fun _ => NetTag.resolve))
    let nud := newUuidData s env
    let s1 := resolveState s env
    let commitSegs : List Seg := if nud.isEmpty then [] else [.locked []]
    let currentU := allMonitoredList s1.monitored
    let uuidsToCheck := currentU.filterMap (fun u => alookup s1.userUuids u)
    if uuidsToCheck.isEmpty then
      { state := s1, notifs := [],
        segs := [.locked []] ++ [resSeg] ++ commitSegs ++ [.locked []] }
    else
      match env.presence with
      | none =>
        { state := s1, notifs := [],
          segs := [.locked []] ++ [resSeg] ++ commitSegs ++ [.locked [], .unlocked [.presence]] }
      | some es =>
        let pd := dedupLast es
        let rev := reverseMap s1.userUuids
        let r := pd.foldl (step5fold s1.monitored rev env.userData) (s1, [], [])
        { state := r.1, notifs := r.2.1,
          segs := [.locked []] ++ [resSeg] ++ commitSegs ++
            [.locked [], .unlocked [.presence], .locked r.2.2] }

/-- An environment in which every external call of the cycle fails
(network error / non-success / malformed payload everywhere). -/
def failingEnv (e : ApiEnv) : Prop :=
  (∀ u, (e.userData u).uuid = none) ∧ e.presence = none

/-- Run the monitor loop body over a list of per-cycle environments,
collecting each cycle's notifications. -/
def runCycles (s : RegState) (envs : List ApiEnv) : RegState × List (List Notif) :=
  envs.foldl (fun acc e =>
    let r := monitorCycle acc.1 e
    (r.state, acc.2 ++ [r.notifs])) (s, [])

/-- The serializable payload written by `save_user_data` (lines 96-101). -/
structure Snapshot where
  userMonitored : List (String × List String)
  limits : List (String × Int)
  authorizedUsers : List String
  latestDbMessageId : Option Int
deriving DecidableEq

/-- `save_user_data`'s payload construction: `user_monitored` with its
sets listed, `PER_USER_LIMITS`, `list(AUTHORIZED_USERS)`, and the pinned
message id.  (JSON serialization round-trips all of these.) -/
def snapshotOf (s : RegState) : Snapshot :=
  ⟨s.monitored, s.perUserLimits, s.authorizedUsers, s.latestDbMessageId⟩

/-- The state-commit of `load_user_data` (lines 144-148): the forward
mapping is rebound wholesale (each list made a set again), the limits
dict and the authorization set are `update`d into the existing state,
and `LATEST_DB_MESSAGE_ID` is taken from the pinned message. -/
def restoreSnapshot (s : RegState) (snap : Snapshot) (pinnedId : Option Int) : RegState :=
  { s with
    monitored := snap.userMonitored.map (fun p => (p.1, sdedup p.2)),
    perUserLimits := snap.limits.foldl (fun m p => aset m p.1 p.2) s.perUserLimits,
    authorizedUsers := snap.authorizedUsers.foldl sadd s.authorizedUsers,
    latestDbMessageId := pinnedId }

/-- A freshly started registry (all module-level containers empty). -/
def emptyReg : RegState :=
  ⟨[], [], [], [], [], [], none⟩

/-- The notifications of `l` concerning watched identity `X`. -/
def msgsFor (X : String) (l : List Notif) : List Notif :=
  l.filter (fun m => m.username == X)

theorem alookup_aset_self {α : Type} (m : List (String × α)) (k : String) (v : α) :
    alookup (aset m k v) k = some v := by
  induction m with
  | nil => simp [aset, alookup]
  | cons p rest ih =>
    by_cases h : p.1 = k
    · simp [aset, h, alookup]
    · simp [aset, h, alookup, ih]

theorem alookup_aset_ne {α : Type} (m : List (String × α)) (k k' : String) (v : α)
    (h : k' ≠ k) : alookup (aset m k v) k' = alookup m k' := by
  have hk : ¬ k = k' := fun hh => h hh.symm
  induction m with
  | nil => simp [aset, alookup, hk]
  | cons p rest ih =>
    by_cases hp : p.1 = k
    · subst hp
      simp [aset, alookup, hk]
    · by_cases hp' : p.1 = k'
      · subst hp'
        simp [aset, hp, alookup]
      · simp [aset, hp, alookup, hp', ih]

theorem alookup_aerase_self {α : Type} (m : List (String × α)) (k : String) :
    alookup (aerase m k) k = none := by
  induction m with
  | nil => simp [aerase, alookup]
  | cons p rest ih =>
    by_cases h : p.1 = k
    · simpa [aerase, h] using ih
    · simpa [aerase, h, alookup] using ih

theorem alookup_aerase_ne {α : Type} (m : List (String × α)) (k k' : String)
    (h : k' ≠ k) : alookup (aerase m k) k' = alookup m k' := by
  have hk : ¬ k = k' := fun hh => h hh.symm
  induction m with
  | nil => simp [aerase, alookup]
  | cons p rest ih =>
    by_cases hp : p.1 = k
    · subst hp
      simpa [aerase, alookup, fun hh : p.1 = k' => hk hh] using ih
    · by_cases hp' : p.1 = k'
      · subst hp'
        simp [aerase, hp, alookup]
      · simpa [aerase, hp, alookup, hp'] using ih

theorem alookup_append {α : Type} (m m2 : List (String × α)) (k : String) :
    alookup (m ++ m2) k =
      match alookup m k with
      | some v => some v
      | none => alookup m2 k := by
  induction m with
  | nil => simp [alookup]
  | cons p rest ih =>
    by_cases h : p.1 = k
    · simp [alookup, h]
    · simp [alookup, h, ih]

theorem mem_sadd (l : List String) (x y : String) :
    y ∈ sadd l x ↔ y ∈ l ∨ y = x := by
  by_cases h : x ∈ l
  · simp only [sadd, if_pos h]
    constructor
    · exact Or.inl
    · rintro (hy | rfl) <;> [exact hy; exact h]
  · simp [sadd, if_neg h]

theorem aset_eq_append {α : Type} (m : List (String × α)) (k : String) (v : α)
    (h : k ∉ akeys m) : aset m k v = m ++ [(k, v)] := by
  induction m with
  | nil => simp [aset]
  | cons p rest ih =>
    simp only [akeys, List.map_cons, List.mem_cons] at h
    push_neg at h
    have hp : ¬ p.1 = k := fun hh => h.1 hh.symm
    simp [aset, hp, ih (by simpa [akeys] using h.2)]

theorem sadd_eq_append (l : List String) (x : String) (h : x ∉ l) :
    sadd l x = l ++ [x] := by
  simp [sadd, h]

theorem foldl_sadd_of_nodup (l : List String) :
    ∀ acc : List String, (acc ++ l).Nodup → l.foldl sadd acc = acc ++ l := by
  induction l with
  | nil => simp
  | cons x rest ih =>
    intro acc h
    have hx : x ∉ acc := by
      intro hmem
      exact (List.disjoint_of_nodup_append h) hmem (by simp)
    rw [List.foldl_cons, sadd_eq_append _ _ hx, ih]
    · simp
    · simpa using h

theorem sdedup_of_nodup (l : List String) (h : l.Nodup) : sdedup l = l := by
  simpa [sdedup] using foldl_sadd_of_nodup l [] (by simpa using h)

theorem mem_foldl_sadd (l : List String) :
    ∀ (acc : List String) (x : String), x ∈ l.foldl sadd acc ↔ x ∈ acc ∨ x ∈ l := by
  induction l with
  | nil => simp
  | cons p rest ih =>
    intro acc x
    rw [List.foldl_cons, ih, mem_sadd]
    simp only [List.mem_cons]
    tauto

theorem mem_sdedup (l : List String) (x : String) : x ∈ sdedup l ↔ x ∈ l := by
  simp [sdedup, mem_foldl_sadd]

theorem akeys_append {α : Type} (m m2 : List (String × α)) :
    akeys (m ++ m2) = akeys m ++ akeys m2 := by
  simp [akeys]

theorem foldl_aset_of_nodup {α : Type} (l : List (String × α)) :
    ∀ acc : List (String × α), (akeys acc ++ akeys l).Nodup →
      l.foldl (fun m p => aset m p.1 p.2) acc = acc ++ l := by
  induction l with
  | nil => simp
  | cons p rest ih =>
    intro acc h
    have hk : p.1 ∉ akeys acc := by
      intro hmem
      exact (List.disjoint_of_nodup_append h) hmem (by simp [akeys])
    rw [List.foldl_cons, aset_eq_append _ _ _ hk, ih]
    · simp
    · simpa [akeys_append, akeys] using h

theorem alookup_foldl_aset_of_not_mem {α : Type} (l : List (String × α)) :
    ∀ (m : List (String × α)) (k : String), k ∉ akeys l →
      alookup (l.foldl (fun m p => aset m p.1 p.2) m) k = alookup m k := by
  induction l with
  | nil => simp
  | cons p rest ih =>
    intro m k h
    simp only [akeys, List.map_cons, List.mem_cons] at h
    push_neg at h
    rw [List.foldl_cons, ih _ _ (by simpa [akeys] using h.2), alookup_aset_ne _ _ _ _ h.1]

theorem alookup_foldl_aset_of_mem {α : Type} (l : List (String × α)) :
    ∀ (m : List (String × α)) (k : String) (v : α), (akeys l).Nodup →
      alookup l k = some v →
      alookup (l.foldl (fun m p => aset m p.1 p.2) m) k = some v := by
  induction l with
  | nil => simp [alookup]
  | cons p rest ih =>
    intro m k v hnd h
    simp only [akeys, List.map_cons, List.nodup_cons] at hnd
    by_cases hp : p.1 = k
    · subst hp
      simp [alookup] at h
      rw [← h, List.foldl_cons,
        alookup_foldl_aset_of_not_mem rest _ _ (by simpa [akeys] using hnd.1),
        alookup_aset_self]
    · simp only [alookup, if_neg hp] at h
      rw [List.foldl_cons]
      exact ih _ _ _ (by simpa [akeys] using hnd.2) h

theorem alookup_eq_some_split {α : Type} (m : List (String × α)) (k : String) (v : α)
    (h : alookup m k = some v) :
    ∃ l1 l2, m = l1 ++ (k, v) :: l2 ∧ ∀ p ∈ l1, p.1 ≠ k := by
  induction m with
  | nil => simp [alookup] at h
  | cons p rest ih =>
    by_cases hp : p.1 = k
    · simp only [alookup, if_pos hp, Option.some.injEq] at h
      refine ⟨[], rest, ?_, by simp⟩
      simp [← hp, ← h]
    · simp only [alookup, if_neg hp] at h
      obtain ⟨l1, l2, heq, hne⟩ := ih h
      exact ⟨p :: l1, l2, by simp [heq], by simpa [hp] using hne⟩

theorem akeys_nil {α : Type} : akeys ([] : List (String × α)) = [] := rfl

theorem akeys_cons {α : Type} (p : String × α) (rest : List (String × α)) :
    akeys (p :: rest) = p.1 :: akeys rest := rfl

theorem akeys_aset {α : Type} (m : List (String × α)) (k : String) (v : α) :
    akeys (aset m k v) = if k ∈ akeys m then akeys m else akeys m ++ [k] := by
  induction m with
  | nil => simp [aset, akeys]
  | cons p rest ih =>
    by_cases hp : p.1 = k
    · subst hp
      simp [aset, akeys]
    · have hk : ¬ k = p.1 := fun hh => hp hh.symm
      rw [show aset (p :: rest) k v = p :: aset rest k v from by simp [aset, hp],
        akeys_cons, akeys_cons, ih]
      by_cases hm : k ∈ akeys rest
      · simp [hm, hk]
      · simp [hm, hk]

theorem watchSetOf_aerase_ne (mon : List (String × List String)) (uid k : String)
    (h : uid ≠ k) : watchSetOf (aerase mon k) uid = watchSetOf mon uid := by
  simp [watchSetOf, alookup_aerase_ne _ _ _ h]

theorem nodup_akeys_aset {α : Type} (m : List (String × α)) (k : String) (v : α)
    (h : (akeys m).Nodup) : (akeys (aset m k v)).Nodup := by
  rw [akeys_aset]
  by_cases hm : k ∈ akeys m
  · simpa [hm] using h
  · rw [if_neg hm, List.nodup_append]
    refine ⟨h, List.nodup_singleton _, ?_⟩
    intro a ha hmem
    simp only [List.mem_singleton] at hmem
    exact hm (hmem ▸ ha)

/-- C9: a sender who is neither the admin nor in the authorization set
gets the fixed denial reply, no registry mutation, and no persistence
write, for any nonempty command text. -/
theorem c9_unauthorized_command_denied (cfg : Cfg) (cenv : CmdEnv) (s : RegState)
    (inc : Incoming)
    (hne : inc.text ≠ "")
    (hadmin : inc.userId ≠ cfg.adminId)
    (hauth : inc.userId ∉ s.authorizedUsers) :
    (handleCommand cfg cenv s inc).state = s ∧
    (handleCommand cfg cenv s inc).replies = [(inc.chatId, Reply.notAuthorized)] ∧
    (handleCommand cfg cenv s inc).saves = 0 := by
  simp [handleCommand, adminPhase, hne, hadmin, hauth]

/-- Witness for C9 at a concrete unauthorized `/add foo`. -/
theorem c9_witness :
    (handleCommand ⟨"A", false⟩ ⟨none⟩ emptyReg ⟨"U", "U", "/add foo"⟩).state = emptyReg ∧
    (handleCommand ⟨"A", false⟩ ⟨none⟩ emptyReg ⟨"U", "U", "/add foo"⟩).replies
      = [("U", Reply.notAuthorized)] ∧
    (handleCommand ⟨"A", false⟩ ⟨none⟩ emptyReg ⟨"U", "U", "/add foo"⟩).saves = 0 :=
  c9_unauthorized_command_denied ⟨"A", false⟩ ⟨none⟩ emptyReg ⟨"U", "U", "/add foo"⟩
    (by decide) (by decide) (by decide)

/-- Concrete registry for the C3 counterexample: `A` is authorized and is
the only subscriber watching `x`, whose caches are populated. -/
def c3State : RegState :=
  ⟨["A"], [], [("A", ["x"])], [("x", "U")], [("x", some "online")], [("x", some 5)], none⟩

/-- C3 counterexample: `/unauthorize A` removes `A` and purges `A`'s
watch set, leaving `x` with no subscriber at all — yet `x`'s cached
resolved token, last status, and last-seen entries all survive, contrary
to the claimed orphan-cache cleanup. -/
theorem c3_counterexample :
    (handleCommand ⟨"boss", false⟩ ⟨none⟩ c3State ⟨"boss", "boss", "/unauthorize A"⟩).state.authorizedUsers = [] ∧
    alookup (handleCommand ⟨"boss", false⟩ ⟨none⟩ c3State ⟨"boss", "boss", "/unauthorize A"⟩).state.monitored "A" = none ∧
    (∀ p ∈ (handleCommand ⟨"boss", false⟩ ⟨none⟩ c3State ⟨"boss", "boss", "/unauthorize A"⟩).state.monitored, "x" ∉ p.2) ∧
    alookup (handleCommand ⟨"boss", false⟩ ⟨none⟩ c3State ⟨"boss", "boss", "/unauthorize A"⟩).state.userUuids "x" = some "U" ∧
    alookup (handleCommand ⟨"boss", false⟩ ⟨none⟩ c3State ⟨"boss", "boss", "/unauthorize A"⟩).state.userLastStatus "x" = some (some "online") ∧
    alookup (handleCommand ⟨"boss", false⟩ ⟨none⟩ c3State ⟨"boss", "boss", "/unauthorize A"⟩).state.userLastSeenUnix "x" = some (some 5) := by
  decide

/-- C3 (amended): `Deauthorize(S)` removes `S` from the authorization set
and purges `S`'s entire watch-set entry, but performs no orphan-cache
cleanup whatsoever: the resolved-token, last-status, and last-seen caches
are left exactly as they were, even for identities `S` was the last
subscriber of. -/
theorem c3_deauthorize_purges_watchset_but_not_caches
    (cfg : Cfg) (cenv : CmdEnv) (s : RegState) (inc : Incoming) (target : String)
    (hadmin : inc.userId = cfg.adminId)
    (hne : inc.text ≠ "")
    (hA : startsWithS inc.text "/authorize" = false)
    (hU : startsWithS inc.text "/unauthorize" = true)
    (hAdd : startsWithS inc.text "/add" = false)
    (hRem : startsWithS inc.text "/remove" = false)
    (hList : startsWithS inc.text "/list" = false)
    (hStat : startsWithS inc.text "/status" = false)
    (hsplit : splitWs inc.text = ["/unauthorize", target])
    (hmem : target ∈ s.authorizedUsers) :
    (handleCommand cfg cenv s inc).state.authorizedUsers = s.authorizedUsers.erase target ∧
    (handleCommand cfg cenv s inc).state.monitored = aerase s.monitored target ∧
    (handleCommand cfg cenv s inc).state.userUuids = s.userUuids ∧
    (handleCommand cfg cenv s inc).state.userLastStatus = s.userLastStatus ∧
    (handleCommand cfg cenv s inc).state.userLastSeenUnix = s.userLastSeenUnix := by
  simp only [handleCommand, adminPhase, userPhase, hne, hadmin, hA, hU, hAdd, hRem, hList,
    hStat, hsplit, doSave, if_true, if_false, Bool.false_eq_true,
    List.length_cons, List.length_nil, List.getD]
  simp [hmem]
  split <;> simp

/-- Witness for the amended C3. -/
theorem c3_witness :
    (handleCommand ⟨"boss", false⟩ ⟨none⟩ c3State ⟨"boss", "boss", "/unauthorize A"⟩).state.authorizedUsers = List.erase ["A"] "A" ∧
    (handleCommand ⟨"boss", false⟩ ⟨none⟩ c3State ⟨"boss", "boss", "/unauthorize A"⟩).state.monitored = aerase [("A", ["x"])] "A" ∧
    (handleCommand ⟨"boss", false⟩ ⟨none⟩ c3State ⟨"boss", "boss", "/unauthorize A"⟩).state.userUuids = [("x", "U")] ∧
    (handleCommand ⟨"boss", false⟩ ⟨none⟩ c3State ⟨"boss", "boss", "/unauthorize A"⟩).state.userLastStatus = [("x", some "online")] ∧
    (handleCommand ⟨"boss", false⟩ ⟨none⟩ c3State ⟨"boss", "boss", "/unauthorize A"⟩).state.userLastSeenUnix = [("x", some 5)] :=
  c3_deauthorize_purges_watchset_but_not_caches ⟨"boss", false⟩ ⟨none⟩ c3State
    ⟨"boss", "boss", "/unauthorize A"⟩ "A" (by decide) (by decide) (by decide) (by decide)
    (by decide) (by decide) (by decide) (by decide) (by decide) (by decide)

/-- Concrete registry for the C4 counterexample: subscriber `S` is
authorized, carries a (restored) limit override of `0`, and has no
watch-mapping entry yet. -/
def c4State : RegState :=
  ⟨["S"], [("S", 0)], [], [], [], [], none⟩

/-- C4 counterexample: with an effective limit of 0 and no prior entry,
`/add foo` is answered with `LimitReached` — but the watch mapping is
mutated anyway: the defaultdict access `user_monitored[user_id]` creates
an empty entry for `S`, so the registry state is not left unchanged. -/
theorem c4_counterexample :
    (handleCommand ⟨"boss", false⟩ ⟨none⟩ c4State ⟨"S", "S", "/add foo"⟩).replies
      = [("S", Reply.limitReached 0)] ∧
    (handleCommand ⟨"boss", false⟩ ⟨none⟩ c4State ⟨"S", "S", "/add foo"⟩).state ≠ c4State ∧
    (handleCommand ⟨"boss", false⟩ ⟨none⟩ c4State ⟨"S", "S", "/add foo"⟩).state.monitored
      = [("S", [])] := by
  decide

/-- C4 (amended): `AddWatch` at or beyond the effective limit (override
if set, else the default of 10) returns `LimitReached`, triggers no
persistence write, and leaves every subscriber's watch set, the limits,
the authorization set, and all presence caches unchanged.  The only
possible state change is a defaultdict-access artifact: a subscriber
with no prior watch-mapping entry gains an entry mapped to the empty
set.  When the subscriber already has an entry, the registry state is
fully unchanged. -/
theorem c4_limit_reached_no_mutation
    (cfg : Cfg) (cenv : CmdEnv) (s : RegState) (inc : Incoming) (w : String)
    (hne : inc.text ≠ "")
    (hA : startsWithS inc.text "/authorize" = false)
    (hU : startsWithS inc.text "/unauthorize" = false)
    (hAdd : startsWithS inc.text "/add" = true)
    (hauth : inc.userId ∈ s.authorizedUsers)
    (hsplit : splitWs inc.text = ["/add", w])
    (hnotin : lowerS w ∉ watchSetOf s.monitored inc.userId)
    (hlim : ((watchSetOf s.monitored inc.userId).length : Int) ≥
        (alookup s.perUserLimits inc.userId).getD MAX_USERNAMES_PER_USER) :
    (handleCommand cfg cenv s inc).replies
      = [(inc.chatId, Reply.limitReached
          ((alookup s.perUserLimits inc.userId).getD MAX_USERNAMES_PER_USER))] ∧
    (handleCommand cfg cenv s inc).saves = 0 ∧
    (∀ uid, watchSetOf (handleCommand cfg cenv s inc).state.monitored uid
      = watchSetOf s.monitored uid) ∧
    (handleCommand cfg cenv s inc).state.perUserLimits = s.perUserLimits ∧
    (handleCommand cfg cenv s inc).state.authorizedUsers = s.authorizedUsers ∧
    (handleCommand cfg cenv s inc).state.userUuids = s.userUuids ∧
    (handleCommand cfg cenv s inc).state.userLastStatus = s.userLastStatus ∧
    (handleCommand cfg cenv s inc).state.userLastSeenUnix = s.userLastSeenUnix ∧
    (handleCommand cfg cenv s inc).state.latestDbMessageId = s.latestDbMessageId ∧
    ((alookup s.monitored inc.userId).isSome → (handleCommand cfg cenv s inc).state = s) := by
  have ha : adminPhase cfg cenv s inc = ⟨s, [], [], 0⟩ := by
    unfold adminPhase
    simp [hA, hU]
  have hcur : (alookup (if (alookup s.monitored inc.userId).isSome then s.monitored
      else s.monitored ++ [(inc.userId, [])]) inc.userId).getD []
      = watchSetOf s.monitored inc.userId := by
    by_cases hsome : (alookup s.monitored inc.userId).isSome
    · simp [if_pos hsome, watchSetOf]
    · rw [if_neg hsome, alookup_append]
      rw [Option.not_isSome_iff_eq_none] at hsome
      simp [hsome, alookup, watchSetOf]
  have hup : userPhase cfg cenv s inc =
      ⟨{ s with monitored := if (alookup s.monitored inc.userId).isSome then s.monitored
           else s.monitored ++ [(inc.userId, [])] },
        [(inc.chatId, Reply.limitReached ((alookup s.perUserLimits inc.userId).getD
          MAX_USERNAMES_PER_USER))], [Seg.locked [NetTag.send]], 0⟩ := by
    unfold userPhase
    simp only [hAdd, hsplit, List.length_cons, List.length_nil, List.getD_cons_succ,
      List.getD_cons_zero, if_true]
    rw [hcur]
    simp [hnotin, hlim, not_lt_of_ge hlim]
  have hwatch : ∀ uid, watchSetOf (if (alookup s.monitored inc.userId).isSome then s.monitored
      else s.monitored ++ [(inc.userId, [])]) uid = watchSetOf s.monitored uid := by
    intro uid
    by_cases hsome : (alookup s.monitored inc.userId).isSome
    · simp [if_pos hsome]
    · rw [if_neg hsome, Option.not_isSome_iff_eq_none] at *
      unfold watchSetOf
      rw [alookup_append]
      by_cases huid : uid = inc.userId
      · subst huid
        simp [hsome, alookup]
      · cases hval : alookup s.monitored uid with
        | none =>
          simp only [hval, alookup]
          split <;> rfl
        | some v => simp
  unfold handleCommand
  rw [if_neg hne, ha]
  simp [hauth, hup, hwatch]
  intro hsome
  rw [if_pos hsome]

/-- Witness for the amended C4 (a subscriber at the default limit of 10). -/
def c4wState : RegState :=
  ⟨["S"], [],
    [("S", ["a1", "a2", "a3", "a4", "a5", "a6", "a7", "a8", "a9", "a10"])],
    [], [], [], none⟩

/-- Witness for the amended C4. -/
theorem c4_witness :
    (handleCommand ⟨"boss", false⟩ ⟨none⟩ c4wState ⟨"S", "S", "/add foo"⟩).replies
      = [("S", Reply.limitReached 10)] ∧
    (handleCommand ⟨"boss", false⟩ ⟨none⟩ c4wState ⟨"S", "S", "/add foo"⟩).saves = 0 ∧
    (handleCommand ⟨"boss", false⟩ ⟨none⟩ c4wState ⟨"S", "S", "/add foo"⟩).state = c4wState := by
  have h := c4_limit_reached_no_mutation ⟨"boss", false⟩ ⟨none⟩ c4wState ⟨"S", "S", "/add foo"⟩
    "foo" (by decide) (by decide) (by decide) (by decide) (by decide) (by decide)
    (by decide) (by decide)
  refine ⟨?_, h.2.1, h.2.2.2.2.2.2.2.2.2 (by decide)⟩
  have := h.1
  simpa using this

/-- A successful `/add` never writes the status cache (or any cache):
it only mutates the watch mapping and persists. -/
theorem userPhase_add_preserves_lastStatus (cfg : Cfg) (cenv : CmdEnv) (s : RegState)
    (inc : Incoming) (hAdd : startsWithS inc.text "/add" = true) :
    (userPhase cfg cenv s inc).state.userLastStatus = s.userLastStatus := by
  unfold userPhase
  simp only [hAdd, if_true]
  repeat' split
  all_goals simp [doSave]

/-- C5: when `/remove` takes identity X away from its last subscriber
(no watch set contains X afterwards), X's cached resolved token, last
status, and last-seen entries are all purged; and any later `/add`
leaves the status cache untouched, so a re-added identity starts over
with no cached status (i.e. `unknown`). -/
theorem c5_last_remove_purges_caches
    (cfg : Cfg) (cenv : CmdEnv) (s : RegState) (inc : Incoming) (w : String)
    (hne : inc.text ≠ "")
    (hA : startsWithS inc.text "/authorize" = false)
    (hU : startsWithS inc.text "/unauthorize" = false)
    (hAdd : startsWithS inc.text "/add" = false)
    (hRem : startsWithS inc.text "/remove" = true)
    (hauth : inc.userId ∈ s.authorizedUsers)
    (hsplit : splitWs inc.text = ["/remove", w])
    (hin : lowerS w ∈ watchSetOf s.monitored inc.userId)
    (horphan : ∀ p ∈ aset s.monitored inc.userId
        ((watchSetOf s.monitored inc.userId).erase (lowerS w)), lowerS w ∉ p.2) :
    (alookup (handleCommand cfg cenv s inc).state.userUuids (lowerS w) = none ∧
     alookup (handleCommand cfg cenv s inc).state.userLastStatus (lowerS w) = none ∧
     alookup (handleCommand cfg cenv s inc).state.userLastSeenUnix (lowerS w) = none) ∧
    (∀ (cfg2 : Cfg) (cenv2 : CmdEnv) (s2 : RegState) (inc2 : Incoming),
      inc2.text ≠ "" →
      startsWithS inc2.text "/authorize" = false →
      startsWithS inc2.text "/unauthorize" = false →
      startsWithS inc2.text "/add" = true →
      (handleCommand cfg2 cenv2 s2 inc2).state.userLastStatus = s2.userLastStatus) := by
  have ha : adminPhase cfg cenv s inc = ⟨s, [], [], 0⟩ := by
    unfold adminPhase
    simp [hA, hU]
  have hup : (userPhase cfg cenv s inc).state.userUuids
        = aerase s.userUuids (lowerS w) ∧
      (userPhase cfg cenv s inc).state.userLastStatus
        = aerase s.userLastStatus (lowerS w) ∧
      (userPhase cfg cenv s inc).state.userLastSeenUnix
        = aerase s.userLastSeenUnix (lowerS w) := by
    unfold userPhase
    simp only [hAdd, hRem, hsplit, Bool.false_eq_true, if_false, if_true,
      List.length_cons, List.length_nil, List.getD_cons_succ, List.getD_cons_zero]
    rw [if_pos hin, if_pos horphan]
    simp [doSave]
  constructor
  · unfold handleCommand
    rw [if_neg hne, ha]
    simp only []
    rw [if_pos (by simpa using hauth)]
    exact ⟨by rw [hup.1, alookup_aerase_self], by rw [hup.2.1, alookup_aerase_self],
      by rw [hup.2.2, alookup_aerase_self]⟩
  · intro cfg2 cenv2 s2 inc2 hne2 hA2 hU2 hAdd2
    have ha2 : adminPhase cfg2 cenv2 s2 inc2 = ⟨s2, [], [], 0⟩ := by
      unfold adminPhase
      simp [hA2, hU2]
    unfold handleCommand
    rw [if_neg hne2, ha2]
    simp only []
    split
    · exact userPhase_add_preserves_lastStatus cfg2 cenv2 s2 inc2 hAdd2
    · rfl

/-- Concrete registry for the C5 witness: `S` is the sole subscriber of
`x`, whose caches are populated. -/
def c5State : RegState :=
  ⟨["S"], [], [("S", ["x"])], [("x", "U")], [("x", some "offline")], [("x", some 7)], none⟩

/-- Witness for C5. -/
theorem c5_witness :
    alookup (handleCommand ⟨"boss", false⟩ ⟨none⟩ c5State
      ⟨"S", "S", "/remove x"⟩).state.userUuids (lowerS "x") = none ∧
    alookup (handleCommand ⟨"boss", false⟩ ⟨none⟩ c5State
      ⟨"S", "S", "/remove x"⟩).state.userLastStatus (lowerS "x") = none ∧
    alookup (handleCommand ⟨"boss", false⟩ ⟨none⟩ c5State
      ⟨"S", "S", "/remove x"⟩).state.userLastSeenUnix (lowerS "x") = none ∧
    (handleCommand ⟨"boss", false⟩ ⟨none⟩ emptyReg
      ⟨"S", "S", "/add x"⟩).state.userLastStatus = emptyReg.userLastStatus := by
  have h := c5_last_remove_purges_caches ⟨"boss", false⟩ ⟨none⟩ c5State
    ⟨"S", "S", "/remove x"⟩ "x" (by decide) (by decide) (by decide) (by decide)
    (by decide) (by decide) (by decide) (by decide) (by decide)
  exact ⟨h.1.1, h.1.2.1, h.1.2.2,
    h.2 ⟨"boss", false⟩ ⟨none⟩ emptyReg ⟨"S", "S", "/add x"⟩ (by decide) (by decide)
      (by decide) (by decide)⟩

theorem map_sdedup_of_nodup (l : List (String × List String))
    (h : ∀ p ∈ l, p.2.Nodup) : l.map (fun p => (p.1, sdedup p.2)) = l := by
  induction l with
  | nil => rfl
  | cons p rest ih =>
    rw [List.map_cons, sdedup_of_nodup _ (h p (by simp)), ih (fun q hq => h q (by simp [hq]))]

theorem alookup_map_snd {α β : Type} (f : α → β) (l : List (String × α)) (k : String) :
    alookup (l.map (fun p => (p.1, f p.2))) k = (alookup l k).map f := by
  induction l with
  | nil => simp [alookup]
  | cons p rest ih =>
    by_cases hp : p.1 = k
    · simp [alookup, hp]
    · simp [alookup, hp, ih]

/-- C6: `Snapshot()` followed by `Restore()` on a fresh registry
reproduces the forward subscriber-to-identities mapping, the limit
overrides, and the authorization set exactly; the presence caches
(resolved tokens, last status, last-seen) stay empty — they are not
carried through the round trip.  The `Nodup` hypotheses record that the
Python values are genuine sets/dicts (no duplicate elements or keys). -/
theorem c6_snapshot_restore_roundtrip (s : RegState) (pid : Option Int)
    (hmon : ∀ p ∈ s.monitored, p.2.Nodup)
    (hlim : (akeys s.perUserLimits).Nodup)
    (hauth : s.authorizedUsers.Nodup) :
    (restoreSnapshot emptyReg (snapshotOf s) pid).monitored = s.monitored ∧
    (restoreSnapshot emptyReg (snapshotOf s) pid).perUserLimits = s.perUserLimits ∧
    (restoreSnapshot emptyReg (snapshotOf s) pid).authorizedUsers = s.authorizedUsers ∧
    (restoreSnapshot emptyReg (snapshotOf s) pid).userUuids = [] ∧
    (restoreSnapshot emptyReg (snapshotOf s) pid).userLastStatus = [] ∧
    (restoreSnapshot emptyReg (snapshotOf s) pid).userLastSeenUnix = [] := by
  refine ⟨?_, ?_, ?_, rfl, rfl, rfl⟩
  · simp only [restoreSnapshot, snapshotOf]
    exact map_sdedup_of_nodup s.monitored hmon
  · simp only [restoreSnapshot, snapshotOf, emptyReg]
    simpa using foldl_aset_of_nodup s.perUserLimits [] (by simpa [akeys] using hlim)
  · simp only [restoreSnapshot, snapshotOf, emptyReg]
    simpa using foldl_sadd_of_nodup s.authorizedUsers [] (by simpa using hauth)

/-- Concrete registry for the C6 witness. -/
def c6State : RegState :=
  ⟨["A", "S"], [("S", 3)], [("S", ["x", "y"]), ("T", [])],
    [("x", "U")], [("x", some "online")], [("x", some 9)], some 2⟩

/-- Witness for C6. -/
theorem c6_witness :
    (restoreSnapshot emptyReg (snapshotOf c6State) (some 7)).monitored = c6State.monitored ∧
    (restoreSnapshot emptyReg (snapshotOf c6State) (some 7)).perUserLimits = c6State.perUserLimits ∧
    (restoreSnapshot emptyReg (snapshotOf c6State) (some 7)).authorizedUsers = c6State.authorizedUsers ∧
    (restoreSnapshot emptyReg (snapshotOf c6State) (some 7)).userUuids = [] ∧
    (restoreSnapshot emptyReg (snapshotOf c6State) (some 7)).userLastStatus = [] ∧
    (restoreSnapshot emptyReg (snapshotOf c6State) (some 7)).userLastSeenUnix = [] :=
  c6_snapshot_restore_roundtrip c6State (some 7) (by decide) (by decide) (by decide)

/-- C10: `Restore` applied to a non-empty registry merges rather than
replaces: limit overrides and authorization entries from the snapshot are
`update`d into the existing in-memory state (pre-existing entries not in
the snapshot survive; snapshot entries win per key), while the forward
subscriber-to-identities mapping is replaced wholesale by the snapshot's
mapping (pre-existing watch entries do not survive). -/
theorem c10_restore_merges (s : RegState) (snap : Snapshot) (pid : Option Int) :
    (∀ k, k ∉ akeys snap.limits →
        alookup (restoreSnapshot s snap pid).perUserLimits k = alookup s.perUserLimits k) ∧
    (∀ k v, (akeys snap.limits).Nodup → alookup snap.limits k = some v →
        alookup (restoreSnapshot s snap pid).perUserLimits k = some v) ∧
    (∀ x, x ∈ (restoreSnapshot s snap pid).authorizedUsers ↔
        x ∈ s.authorizedUsers ∨ x ∈ snap.authorizedUsers) ∧
    (∀ uid, alookup (restoreSnapshot s snap pid).monitored uid
        = (alookup snap.userMonitored uid).map sdedup) := by
  refine ⟨?_, ?_, ?_, ?_⟩
  · intro k hk
    simp only [restoreSnapshot]
    exact alookup_foldl_aset_of_not_mem snap.limits s.perUserLimits k hk
  · intro k v hnd hv
    simp only [restoreSnapshot]
    exact alookup_foldl_aset_of_mem snap.limits s.perUserLimits k v hnd hv
  · intro x
    simp only [restoreSnapshot]
    exact mem_foldl_sadd snap.authorizedUsers s.authorizedUsers x
  · intro uid
    simp only [restoreSnapshot]
    exact alookup_map_snd sdedup snap.userMonitored uid

/-- Concrete non-empty registry and snapshot for the C10 witness. -/
def c10State : RegState :=
  ⟨["A"], [("L", 1)], [("Old", ["z"])], [], [], [], none⟩

/-- Concrete snapshot for the C10 witness. -/
def c10Snap : Snapshot :=
  ⟨[("S", ["x", "x"])], [("K", 5)], ["B"], some 4⟩

/-- Witness for C10. -/
theorem c10_witness :
    alookup (restoreSnapshot c10State c10Snap (some 3)).perUserLimits "L" = some 1 ∧
    alookup (restoreSnapshot c10State c10Snap (some 3)).perUserLimits "K" = some 5 ∧
    ("B" ∈ (restoreSnapshot c10State c10Snap (some 3)).authorizedUsers ↔
      ("B" ∈ c10State.authorizedUsers ∨ "B" ∈ c10Snap.authorizedUsers)) ∧
    alookup (restoreSnapshot c10State c10Snap (some 3)).monitored "Old"
      = (alookup c10Snap.userMonitored "Old").map sdedup := by
  have h := c10_restore_merges c10State c10Snap (some 3)
  exact ⟨h.1 "L" (by decide), h.2.1 "K" 5 (by decide) (by decide),
    h.2.2.1 "B", h.2.2.2 "Old"⟩

/-- One cycle under a fully failing environment changes nothing and
sends nothing: uuid resolution yields no data, and the failed presence
fetch short-circuits the rest of the cycle. -/
theorem monitorCycle_failing (s : RegState) (e : ApiEnv) (he : failingEnv e) :
    (monitorCycle s e).state = s ∧ (monitorCycle s e).notifs = [] := by
  have hnud : newUuidData s e = [] := by
    simp [newUuidData, he.1]
  have hres : resolveState s e = s := by
    simp [resolveState, hnud]
  unfold monitorCycle
  simp only [hnud, hres, he.2]
  split
  · exact ⟨rfl, rfl⟩
  · split
    · exact ⟨rfl, rfl⟩
    · exact ⟨rfl, rfl⟩

theorem runCycles_failing_aux (envs : List ApiEnv) :
    ∀ (s : RegState) (acc : List (List Notif)), (∀ e ∈ envs, failingEnv e) →
      (envs.foldl (fun a e =>
        ((monitorCycle a.1 e).state, a.2 ++ [(monitorCycle a.1 e).notifs])) (s, acc)).1 = s ∧
      ∀ o ∈ (envs.foldl (fun a e =>
        ((monitorCycle a.1 e).state, a.2 ++ [(monitorCycle a.1 e).notifs])) (s, acc)).2,
        o ∈ acc ∨ o = [] := by
  induction envs with
  | nil => exact fun s acc _ => ⟨rfl, fun o ho => Or.inl ho⟩
  | cons e rest ih =>
    intro s acc h
    have hf := monitorCycle_failing s e (h e (by simp))
    rw [List.foldl_cons, hf.1, hf.2]
    have := ih s (acc ++ [[]]) (fun e2 he2 => h e2 (by simp [he2]))
    refine ⟨this.1, fun o ho => ?_⟩
    rcases this.2 o ho with hmem | hnil
    · rcases List.mem_append.1 hmem with hl | hr
      · exact Or.inl hl
      · simp only [List.mem_singleton] at hr
        exact Or.inr hr
    · exact Or.inr hnil

/-- C8: the monitor loop body is a total function of its environment
(the `except Exception` handler at line 268 catches every in-cycle
failure), and under arbitrarily many consecutive fully-failing cycles
(network error / non-success / malformed payload on every call) the
loop keeps running with the registry unchanged and no notification
sent — each failing cycle degrades gracefully instead of raising. -/
theorem c8_loop_survives_consecutive_failures (s : RegState) (envs : List ApiEnv)
    (h : ∀ e ∈ envs, failingEnv e) :
    (runCycles s envs).1 = s ∧ ∀ o ∈ (runCycles s envs).2, o = [] := by
  have haux := runCycles_failing_aux envs s [] h
  refine ⟨haux.1, fun o ho => ?_⟩
  have := haux.2 o ho
  rcases this with hmem | hnil
  · exact absurd hmem (List.not_mem_nil o)
  · exact hnil

/-- Concrete registry for the C8 witness (caches populated, one watcher). -/
def c8State : RegState :=
  ⟨["S"], [], [("S", ["x"])], [("x", "U")], [("x", some "online")], [("x", some 7)], none⟩

/-- The all-failing environment. -/
def failEnvC : ApiEnv :=
  ⟨fun _ => ⟨none, none⟩, none⟩

/-- Witness for C8: three consecutive fully failing cycles. -/
theorem c8_witness :
    (runCycles c8State [failEnvC, failEnvC, failEnvC]).1 = c8State ∧
    ∀ o ∈ (runCycles c8State [failEnvC, failEnvC, failEnvC]).2, o = [] :=
  c8_loop_survives_consecutive_failures c8State [failEnvC, failEnvC, failEnvC]
    (by
      intro e he
      simp only [List.mem_cons, List.not_mem_nil, or_false] at he
      rcases he with rfl | rfl | rfl <;> exact ⟨fun u => rfl, rfl⟩)

theorem underLockTags_append (a b : List Seg) :
    underLockTags (a ++ b) = underLockTags a ++ underLockTags b := by
  simp [underLockTags]

theorem underLockTags_locked (ts : List NetTag) (rest : List Seg) :
    underLockTags (Seg.locked ts :: rest) = ts ++ underLockTags rest := by
  simp [underLockTags]

theorem underLockTags_unlocked (ts : List NetTag) (rest : List Seg) :
    underLockTags (Seg.unlocked ts :: rest) = underLockTags rest := by
  simp [underLockTags]

theorem underLockTags_nil : underLockTags [] = [] := rfl

/-- The reconciliation fold of step 5 only ever issues message sends and
last-seen refreshes. -/
theorem fanout_tags_send_refresh (mon : List (String × List String))
    (rev : List (String × String)) (ud : String → UserData)
    (es : List (String × Option String)) :
    ∀ acc : RegState × List Notif × List NetTag,
      (∀ t ∈ acc.2.2, t = NetTag.send ∨ t = NetTag.refresh) →
      ∀ t ∈ (es.foldl (step5fold mon rev ud) acc).2.2,
        t = NetTag.send ∨ t = NetTag.refresh := by
  induction es with
  | nil => exact fun acc h => h
  | cons e rest ih =>
    intro acc hacc
    rw [List.foldl_cons]
    apply ih
    rcases acc with ⟨st, msgs, tags⟩
    rcases e with ⟨uuid, newStatus⟩
    simp only [step5fold]
    cases halo : alookup rev uuid with
    | none => exact hacc
    | some username =>
      by_cases h1 : newStatus = some "online" ∧
          (alookup st.userLastStatus username).join ≠ some "online"
      · simp only [if_pos h1]
        intro t ht
        rcases List.mem_append.1 ht with h | h
        · exact hacc t h
        · rcases List.mem_map.1 h with ⟨u2, _, rfl⟩
          exact Or.inl rfl
      · by_cases h2 : newStatus ≠ some "online" ∧
            (alookup st.userLastStatus username).join = some "online"
        · simp only [if_neg h1, if_pos h2]
          intro t ht
          rcases List.mem_append.1 ht with h | h
          · exact hacc t h
          · simp only [List.mem_singleton] at h
            exact Or.inr h
        · simp only [if_neg h1, if_neg h2]
          exact hacc


/-- In the monitor loop, the only network calls made while the lock is
held are the fan-out message sends and the `online → offline` last-seen
refresh of step 5. -/
theorem monitorCycle_under_lock_tags (s : RegState) (env : ApiEnv) :
    ∀ t ∈ underLockTags (monitorCycle s env).segs,
      t = NetTag.send ∨ t = NetTag.refresh := by
  simp only [monitorCycle]
  by_cases hempty : (allMonitoredList s.monitored).isEmpty = true
  · simp [hempty, underLockTags]
  · rw [Bool.not_eq_true] at hempty
    simp only [hempty, Bool.false_eq_true, if_false]
    by_cases hchk : (List.filterMap (fun u => alookup (resolveState s env).userUuids u)
        (allMonitoredList (resolveState s env).monitored)).isEmpty = true
    · simp only [hchk, if_true]
      by_cases hnud : (newUuidData s env).isEmpty = true
      · simp [hnud, underLockTags]
      · rw [Bool.not_eq_true] at hnud
        simp [hnud, underLockTags]
    · rw [Bool.not_eq_true] at hchk
      simp only [hchk, Bool.false_eq_true, if_false]
      cases hpres : env.presence with
      | none =>
        by_cases hnud : (newUuidData s env).isEmpty = true
        · simp [hnud, underLockTags]
        · rw [Bool.not_eq_true] at hnud
          simp [hnud, underLockTags]
      | some es =>
        have hfan := fanout_tags_send_refresh (resolveState s env).monitored
          (reverseMap (resolveState s env).userUuids) env.userData (dedupLast es)
          ((resolveState s env), [], []) (by simp)
        by_cases hnud : (newUuidData s env).isEmpty = true
        · simp only [hnud, if_true]
          intro t ht
          simp only [underLockTags, List.map_append, List.map_cons, List.map_nil,
            List.flatten_append, List.flatten_cons, List.flatten_nil, List.append_nil,
            List.nil_append] at ht
          exact hfan t ht
        · rw [Bool.not_eq_true] at hnud
          simp only [hnud, Bool.false_eq_true, if_false]
          intro t ht
          simp only [underLockTags, List.map_append, List.map_cons, List.map_nil,
            List.flatten_append, List.flatten_cons, List.flatten_nil, List.append_nil,
            List.nil_append] at ht
          exact hfan t ht

/-- In the admin command block, the only network calls made while the
lock is held are reply sends and the persistence document upload. -/
theorem adminPhase_under_lock_tags (cfg : Cfg) (cenv : CmdEnv) (s : RegState)
    (inc : Incoming) :
    ∀ t ∈ underLockTags (adminPhase cfg cenv s inc).segs,
      t = NetTag.send ∨ t = NetTag.saveDoc := by
  intro t ht
  simp only [adminPhase] at ht
  split_ifs at ht
  all_goals (
    simp only [underLockTags, saveTags, List.map_cons, List.map_nil, List.flatten_cons,
      List.flatten_nil, List.append_nil, List.nil_append] at ht
    try split at ht)
  all_goals simp at ht
  all_goals tauto

/-- In the user command block, the only network calls made while the
lock is held are reply sends and the persistence document upload. -/
theorem userPhase_under_lock_tags (cfg : Cfg) (cenv : CmdEnv) (s : RegState)
    (inc : Incoming) :
    ∀ t ∈ underLockTags (userPhase cfg cenv s inc).segs,
      t = NetTag.send ∨ t = NetTag.saveDoc := by
  intro t ht
  simp only [userPhase] at ht
  split_ifs at ht
  all_goals (
    simp only [underLockTags, saveTags, List.map_cons, List.map_nil, List.flatten_cons,
      List.flatten_nil, List.append_nil, List.nil_append] at ht
    try split at ht)
  all_goals simp at ht
  all_goals tauto

/-- In `handle_commands`, every network call made while the lock is held
is either a reply send or the `save_user_data` document upload. -/
theorem handleCommand_under_lock_tags (cfg : Cfg) (cenv : CmdEnv) (s : RegState)
    (inc : Incoming) :
    ∀ t ∈ underLockTags (handleCommand cfg cenv s inc).segs,
      t = NetTag.send ∨ t = NetTag.saveDoc := by
  intro t ht
  simp only [handleCommand] at ht
  split at ht
  · simp [underLockTags] at ht
  · split at ht
    · simp only [] at ht
      rw [underLockTags_append] at ht
      rcases List.mem_append.1 ht with h | h
      · exact adminPhase_under_lock_tags _ _ _ _ t h
      · exact userPhase_under_lock_tags _ _ _ _ t h
    · simp only [] at ht
      rw [underLockTags_append] at ht
      rcases List.mem_append.1 ht with h | h
      · exact adminPhase_under_lock_tags _ _ _ _ t h
      · rw [underLockTags_unlocked, underLockTags_nil] at h
        exact absurd h (List.not_mem_nil t)

/-- Concrete registry for the C2 counterexample: `S` watches `x`, whose
UUID is cached and whose previous status is unknown. -/
def c2State : RegState :=
  ⟨["S"], [], [("S", ["x"])], [("x", "U")], [], [], none⟩

/-- A cycle environment whose presence batch reports `x` online. -/
def c2Env : ApiEnv :=
  ⟨fun _ => ⟨none, none⟩, some [("U", some "online")]⟩

/-- C2 counterexample: in the reconciliation cycle that detects `x`
coming online, the notification `send_telegram_message` call (line 258)
is issued inside the `with STATE_LOCK:` block that starts at line 242 —
an outbound network call performed while the global state lock is held,
contradicting the claim. -/
theorem c2_counterexample :
    NetTag.send ∈ underLockTags (monitorCycle c2State c2Env).segs := by
  decide

/-- C2 (amended): the identity-resolution calls of step 2 and the
batched presence fetch of step 4 are indeed performed outside the lock,
but the lock is not limited to read-snapshot/write-commit: while holding
it, the monitor loop issues the fan-out notification sends and the
`online → offline` last-seen refresh call, and the command handler
issues reply sends and the `save_user_data` document upload. -/
theorem c2_network_calls_under_lock (s : RegState) (env : ApiEnv)
    (cfg : Cfg) (cenv : CmdEnv) (s2 : RegState) (inc : Incoming) :
    (∀ t ∈ underLockTags (monitorCycle s env).segs,
      t = NetTag.send ∨ t = NetTag.refresh) ∧
    (∀ t ∈ underLockTags (monitorCycle s env).segs,
      t ≠ NetTag.resolve ∧ t ≠ NetTag.presence) ∧
    (∀ t ∈ underLockTags (handleCommand cfg cenv s2 inc).segs,
      t = NetTag.send ∨ t = NetTag.saveDoc) := by
  refine ⟨monitorCycle_under_lock_tags s env, ?_,
    handleCommand_under_lock_tags cfg cenv s2 inc⟩
  intro t ht
  rcases monitorCycle_under_lock_tags s env t ht with rfl | rfl
  · exact ⟨by decide, by decide⟩
  · exact ⟨by decide, by decide⟩

/-- Witness for the amended C2. -/
theorem c2_witness :
    (NetTag.send = NetTag.send ∨ NetTag.send = NetTag.refresh) ∧
    (NetTag.send ≠ NetTag.resolve ∧ NetTag.send ≠ NetTag.presence) ∧
    (NetTag.saveDoc = NetTag.send ∨ NetTag.saveDoc = NetTag.saveDoc) := by
  have h := c2_network_calls_under_lock c2State c2Env ⟨"A", true⟩ ⟨some 1⟩
    ⟨["S"], [], [], [], [], [], none⟩ ⟨"A", "A", "/authorize B"⟩
  exact ⟨h.1 NetTag.send (by decide), h.2.1 NetTag.send (by decide),
    h.2.2 NetTag.saveDoc (by decide)⟩

theorem msgsFor_append (X : String) (a b : List Notif) :
    msgsFor X (a ++ b) = msgsFor X a ++ msgsFor X b := by
  simp [msgsFor]

theorem msgsFor_map_mk_ne (X username : String) (ls : Option Int) (l : List String)
    (h : username ≠ X) :
    msgsFor X (l.map (fun uid => Notif.mk uid username ls)) = [] := by
  induction l with
  | nil => rfl
  | cons u rest ih =>
    simp only [msgsFor] at ih
    simp [msgsFor, h, ih]

/-- Processing a presence entry that does not resolve to `X` leaves `X`'s
notifications, cached status, and cached last-seen untouched. -/
theorem step5fold_frame_step (mon : List (String × List String))
    (rev : List (String × String)) (ud : String → UserData)
    (st : RegState) (msgs : List Notif) (tags : List NetTag)
    (uuid : String) (newStatus : Option String) (X : String)
    (hne : alookup rev uuid ≠ some X) :
    msgsFor X (step5fold mon rev ud (st, msgs, tags) (uuid, newStatus)).2.1
      = msgsFor X msgs ∧
    alookup (step5fold mon rev ud (st, msgs, tags) (uuid, newStatus)).1.userLastStatus X
      = alookup st.userLastStatus X ∧
    alookup (step5fold mon rev ud (st, msgs, tags) (uuid, newStatus)).1.userLastSeenUnix X
      = alookup st.userLastSeenUnix X := by
  cases halo : alookup rev uuid with
  | none => simp [step5fold, halo]
  | some username =>
    have hXne : username ≠ X := fun hh => hne (by rw [halo, hh])
    simp only [step5fold, halo]
    by_cases h1 : newStatus = some "online" ∧
        (alookup st.userLastStatus username).join ≠ some "online"
    · rw [if_pos h1]
      refine ⟨?_, ?_, rfl⟩
      · rw [msgsFor_append, msgsFor_map_mk_ne _ _ _ _ hXne, List.append_nil]
      · exact alookup_aset_ne _ _ _ _ (Ne.symm hXne)
    · rw [if_neg h1]
      by_cases h2 : newStatus ≠ some "online" ∧
          (alookup st.userLastStatus username).join = some "online"
      · rw [if_pos h2]
        refine ⟨rfl, alookup_aset_ne _ _ _ _ (Ne.symm hXne), ?_⟩
        cases hud : (ud username).lastOnlineUnix with
        | none => simp [hud]
        | some lo =>
          by_cases hlo : lo = 0
          · simp [hud, hlo]
          · simp [hud, hlo, alookup_aset_ne _ _ _ _ (Ne.symm hXne)]
      · rw [if_neg h2]
        exact ⟨rfl, alookup_aset_ne _ _ _ _ (Ne.symm hXne), rfl⟩

/-- Folding over entries none of which resolves to `X` leaves `X`'s
notifications, cached status, and cached last-seen untouched. -/
theorem fanout_frame (mon : List (String × List String))
    (rev : List (String × String)) (ud : String → UserData) (X : String)
    (es : List (String × Option String)) :
    ∀ (st : RegState) (msgs : List Notif) (tags : List NetTag),
      (∀ e ∈ es, alookup rev e.1 ≠ some X) →
      msgsFor X (es.foldl (step5fold mon rev ud) (st, msgs, tags)).2.1
        = msgsFor X msgs ∧
      alookup (es.foldl (step5fold mon rev ud) (st, msgs, tags)).1.userLastStatus X
        = alookup st.userLastStatus X ∧
      alookup (es.foldl (step5fold mon rev ud) (st, msgs, tags)).1.userLastSeenUnix X
        = alookup st.userLastSeenUnix X := by
  induction es with
  | nil => exact fun st msgs tags _ => ⟨rfl, rfl, rfl⟩
  | cons e rest ih =>
    intro st msgs tags h
    rw [List.foldl_cons]
    rcases e with ⟨uuid, newStatus⟩
    have hstep := step5fold_frame_step mon rev ud st msgs tags uuid newStatus X
      (h (uuid, newStatus) (by simp))
    rcases hsf : step5fold mon rev ud (st, msgs, tags) (uuid, newStatus) with ⟨st2, msgs2, tags2⟩
    rw [hsf] at hstep
    have hrest := ih st2 msgs2 tags2 (fun e2 h2 => h e2 (by simp [h2]))
    exact ⟨hrest.1.trans hstep.1, hrest.2.1.trans hstep.2.1, hrest.2.2.trans hstep.2.2⟩

/-- Processing `X`'s presence entry when the transition fires: one
notification per subscriber of `X`, read from the live forward mapping;
`X`'s status cache is set to the new status. -/
theorem step5fold_fire (mon : List (String × List String))
    (rev : List (String × String)) (ud : String → UserData)
    (st : RegState) (msgs : List Notif) (tags : List NetTag)
    (uuid : String) (newStatus : Option String) (X : String)
    (halo : alookup rev uuid = some X)
    (h1 : newStatus = some "online")
    (h2 : (alookup st.userLastStatus X).join ≠ some "online") :
    step5fold mon rev ud (st, msgs, tags) (uuid, newStatus)
      = ({ st with userLastStatus := aset st.userLastStatus X newStatus },
        msgs ++ (subscribersOf mon X).map (fun uid =>
          Notif.mk uid X (alookup st.userLastSeenUnix X).join),
        tags ++ (subscribersOf mon X).map (fun _ => NetTag.send)) := by
  simp only [step5fold, halo]
  rw [if_pos ⟨h1, h2⟩]

/-- Processing `X`'s presence entry while it stays online: no message. -/
theorem step5fold_online_stay (mon : List (String × List String))
    (rev : List (String × String)) (ud : String → UserData)
    (st : RegState) (msgs : List Notif) (tags : List NetTag)
    (uuid : String) (X : String)
    (halo : alookup rev uuid = some X)
    (h2 : (alookup st.userLastStatus X).join = some "online") :
    step5fold mon rev ud (st, msgs, tags) (uuid, some "online")
      = ({ st with userLastStatus := aset st.userLastStatus X (some "online") },
        msgs, tags) := by
  simp only [step5fold, halo]
  rw [if_neg (fun hc => hc.2 h2), if_neg (fun hc => hc.1 rfl)]

/-- If `X` is already cached online and every presence entry resolving to
`X` reports online, the fold produces no notification for `X`. -/
theorem fanout_no_fire (mon : List (String × List String))
    (rev : List (String × String)) (ud : String → UserData) (X : String)
    (es : List (String × Option String)) :
    ∀ (st : RegState) (msgs : List Notif) (tags : List NetTag),
      (alookup st.userLastStatus X).join = some "online" →
      (∀ e ∈ es, alookup rev e.1 = some X → e.2 = some "online") →
      msgsFor X (es.foldl (step5fold mon rev ud) (st, msgs, tags)).2.1
        = msgsFor X msgs := by
  induction es with
  | nil => intro st msgs tags _ _; rfl
  | cons e rest ih =>
    intro st msgs tags hst h
    rcases e with ⟨uuid, newStatus⟩
    rw [List.foldl_cons]
    by_cases hX : alookup rev uuid = some X
    · have hon : newStatus = some "online" := h (uuid, newStatus) (by simp) hX
      subst hon
      rw [step5fold_online_stay mon rev ud st msgs tags uuid X hX hst]
      apply ih
      · simp [alookup_aset_self]
      · exact fun e2 h2 => h e2 (by simp [h2])
    · have hstep := step5fold_frame_step mon rev ud st msgs tags uuid newStatus X hX
      rcases hsf : step5fold mon rev ud (st, msgs, tags) (uuid, newStatus)
        with ⟨st2, msgs2, tags2⟩
      rw [hsf] at hstep
      rw [ih st2 msgs2 tags2 (by rw [show alookup ((st2, msgs2, tags2).1 : RegState).userLastStatus X = alookup st2.userLastStatus X from rfl] at hstep; rw [hstep.2.1]; exact hst) (fun e2 h2 => h e2 (by simp [h2]))]
      exact hstep.1

theorem resolveFold_preserves (l : List (String × String × Option Int)) :
    ∀ st : RegState,
      (l.foldl (fun st d =>
        { st with userUuids := aset st.userUuids d.1 d.2.1,
                  userLastSeenUnix := aset st.userLastSeenUnix d.1 d.2.2 }) st).monitored
        = st.monitored ∧
      (l.foldl (fun st d =>
        { st with userUuids := aset st.userUuids d.1 d.2.1,
                  userLastSeenUnix := aset st.userLastSeenUnix d.1 d.2.2 }) st).userLastStatus
        = st.userLastStatus := by
  induction l with
  | nil => exact fun st => ⟨rfl, rfl⟩
  | cons d rest ih =>
    intro st
    rw [List.foldl_cons]
    exact ih _

theorem resolveState_monitored (s : RegState) (env : ApiEnv) :
    (resolveState s env).monitored = s.monitored :=
  (resolveFold_preserves (newUuidData s env) s).1

theorem resolveState_userLastStatus (s : RegState) (env : ApiEnv) :
    (resolveState s env).userLastStatus = s.userLastStatus :=
  (resolveFold_preserves (newUuidData s env) s).2

theorem mem_foldl_append_values (mon : List (String × List String)) :
    ∀ (acc : List String) (x : String),
      x ∈ mon.foldl (fun acc p => acc ++ p.2) acc ↔ x ∈ acc ∨ ∃ p ∈ mon, x ∈ p.2 := by
  induction mon with
  | nil => simp
  | cons p rest ih =>
    intro acc x
    rw [List.foldl_cons, ih]
    simp only [List.mem_append, List.mem_cons]
    constructor
    · rintro ((h | h) | ⟨q, hq, hx⟩)
      · exact Or.inl h
      · exact Or.inr ⟨p, Or.inl rfl, h⟩
      · exact Or.inr ⟨q, Or.inr hq, hx⟩
    · rintro (h | ⟨q, (rfl | hq), hx⟩)
      · exact Or.inl (Or.inl h)
      · exact Or.inl (Or.inr hx)
      · exact Or.inr ⟨q, hq, hx⟩

theorem mem_allMonitoredList (mon : List (String × List String)) (x : String) :
    x ∈ allMonitoredList mon ↔ ∃ p ∈ mon, x ∈ p.2 := by
  rw [allMonitoredList, mem_sdedup, mem_foldl_append_values]
  simp

theorem nodup_akeys_foldl_aset {α β : Type} (es : List β) (f : β → String) (g : β → α) :
    ∀ acc : List (String × α), (akeys acc).Nodup →
      (akeys (es.foldl (fun d e => aset d (f e) (g e)) acc)).Nodup := by
  induction es with
  | nil => exact fun acc h => h
  | cons e rest ih =>
    intro acc h
    rw [List.foldl_cons]
    exact ih _ (nodup_akeys_aset _ _ _ h)

theorem nodup_akeys_dedupLast (es : List (String × Option String)) :
    (akeys (dedupLast es)).Nodup :=
  nodup_akeys_foldl_aset es Prod.fst Prod.snd [] (by simp [akeys])

theorem nodup_keys_split {α : Type} (l1 l2 : List (String × α)) (u : String) (v : α)
    (h : (akeys (l1 ++ (u, v) :: l2)).Nodup) : u ∉ akeys l1 ∧ u ∉ akeys l2 := by
  rw [akeys_append, akeys_cons, List.nodup_append] at h
  obtain ⟨h1, h2, hdis⟩ := h
  rw [List.nodup_cons] at h2
  exact ⟨fun hm => hdis hm (by simp), h2.1⟩

theorem subscribersOf_sub_akeys (mon : List (String × List String)) (X : String) :
    ∀ u ∈ subscribersOf mon X, u ∈ akeys mon := by
  intro u hu
  rcases List.mem_filterMap.1 hu with ⟨p, hp, he⟩
  by_cases hX : X ∈ p.2
  · rw [if_pos hX] at he
    injection he with he
    exact he ▸ (List.mem_map.2 ⟨p, hp, rfl⟩)
  · rw [if_neg hX] at he
    exact absurd he (by simp)

theorem filter_subscribersOf_eq_nil (mon : List (String × List String)) (X uid : String)
    (h : uid ∉ akeys mon) :
    (subscribersOf mon X).filter (fun u => u == uid) = [] := by
  rw [List.filter_eq_nil_iff]
  intro a ha
  have hmem := subscribersOf_sub_akeys mon X a ha
  simp only [beq_iff_eq]
  exact fun hh => h (hh ▸ hmem)

/-- With duplicate-free subscriber keys, the fan-out recipient list
contains a given subscriber exactly once when they watch `X`, never
otherwise. -/
theorem count_filter_subscribersOf (mon : List (String × List String)) (X uid : String) :
    (akeys mon).Nodup →
    ((subscribersOf mon X).filter (fun u => u == uid)).length
      = if X ∈ watchSetOf mon uid then 1 else 0 := by
  induction mon with
  | nil => intro _; simp [subscribersOf, watchSetOf, alookup]
  | cons p rest ih =>
    intro hnd
    rw [akeys_cons, List.nodup_cons] at hnd
    simp only [subscribersOf, List.filterMap_cons]
    by_cases hXp : X ∈ p.2
    · rw [if_pos hXp]
      by_cases hpu : p.1 = uid
      · subst hpu
        have h0 := filter_subscribersOf_eq_nil rest X p.1 hnd.1
        simp only [subscribersOf] at h0
        rw [List.filter_cons]
        simp only [beq_self_eq_true, if_true, h0]
        simp [watchSetOf, alookup, hXp]
      · have ihh := ih hnd.2
        simp only [subscribersOf] at ihh
        rw [List.filter_cons]
        have hb : (p.1 == uid) = false := by simp [hpu]
        rw [hb]
        simp only [Bool.false_eq_true, if_false, ihh]
        simp [watchSetOf, alookup, hpu]
    · rw [if_neg hXp]
      by_cases hpu : p.1 = uid
      · subst hpu
        have h0 := filter_subscribersOf_eq_nil rest X p.1 hnd.1
        simp only [subscribersOf] at h0
        rw [h0]
        simp [watchSetOf, alookup, hXp]
      · have ihh := ih hnd.2
        simp only [subscribersOf] at ihh
        rw [ihh]
        simp [watchSetOf, alookup, hpu]

theorem msgsFor_nil (X : String) : msgsFor X [] = [] := rfl

theorem msgsFor_map_mk_self (X : String) (ls : Option Int) (l : List String) :
    msgsFor X (l.map (fun uid => Notif.mk uid X ls))
      = l.map (fun uid => Notif.mk uid X ls) := by
  rw [msgsFor, List.filter_eq_self]
  intro m hm
  rcases List.mem_map.1 hm with ⟨u2, _, rfl⟩
  simp

theorem filter_user_chat (l : List Notif) (X uid : String) :
    l.filter (fun m => m.username == X && m.chatId == uid)
      = (msgsFor X l).filter (fun m => m.chatId == uid) := by
  induction l with
  | nil => rfl
  | cons m rest ih =>
    simp only [msgsFor, List.filter_cons] at ih ⊢
    by_cases h1 : m.username = X
    · by_cases h2 : m.chatId = uid
      · simp [h1, h2, ih]
      · simp [h1, h2, ih]
    · simp [h1, ih]

theorem filter_chat_map_mk (subs : List String) (X uid : String) (ls : Option Int) :
    (subs.map (fun u2 => Notif.mk u2 X ls)).filter (fun m => m.chatId == uid)
      = (subs.filter (fun u2 => u2 == uid)).map (fun u2 => Notif.mk u2 X ls) := by
  induction subs with
  | nil => rfl
  | cons a rest ih =>
    simp only [List.map_cons, List.filter_cons]
    by_cases h : a = uid
    · simp [h, ih]
    · simp [h, ih]

/-- C1: in a reconciliation cycle whose presence batch reports watched
identity `X` as `online` while its cached previous status is not
`online`, exactly one notification is sent to each subscriber whose
watch set contains `X` (recipients computed from the live forward
mapping at fan-out time), and zero to everyone else; moreover, in any
cycle where `X` is cached `online` and is fetched `online` again, zero
notifications are produced for `X`.  The hypotheses pin down `X`'s
resolved token `u` (cached, with the reverse lookup of the cycle mapping
`u` — and only `u` — back to `X`) and its deduplicated presence entry. -/
theorem c1_online_transition_fires_once (s : RegState) (env : ApiEnv)
    (X u : String) (es : List (String × Option String))
    (hpres : env.presence = some es)
    (hmonNd : (akeys s.monitored).Nodup)
    (hwatch : ∃ p ∈ s.monitored, X ∈ p.2)
    (hXu : alookup (resolveState s env).userUuids X = some u)
    (hrev : alookup (reverseMap (resolveState s env).userUuids) u = some X)
    (hinj : ∀ u2, alookup (reverseMap (resolveState s env).userUuids) u2 = some X → u2 = u)
    (hentry : alookup (dedupLast es) u = some (some "online"))
    (hprev : (alookup s.userLastStatus X).join ≠ some "online") :
    (∀ uid, ((monitorCycle s env).notifs.filter
        (fun m => m.username == X && m.chatId == uid)).length
      = if X ∈ watchSetOf s.monitored uid then 1 else 0) ∧
    (∀ (s2 : RegState) (env2 : ApiEnv) (es2 : List (String × Option String)),
      env2.presence = some es2 →
      (alookup s2.userLastStatus X).join = some "online" →
      (∀ e ∈ dedupLast es2,
        alookup (reverseMap (resolveState s2 env2).userUuids) e.1 = some X →
        e.2 = some "online") →
      msgsFor X (monitorCycle s2 env2).notifs = []) := by
  constructor
  · intro uid
    have hXall : X ∈ allMonitoredList s.monitored := (mem_allMonitoredList _ _).2 hwatch
    have hne : allMonitoredList s.monitored ≠ [] := List.ne_nil_of_mem hXall
    have hempty : (allMonitoredList s.monitored).isEmpty = false := by
      rw [Bool.eq_false_iff]
      intro hh
      exact hne (List.isEmpty_iff.1 hh)
    have hXcur : X ∈ allMonitoredList (resolveState s env).monitored := by
      rw [resolveState_monitored]
      exact hXall
    have huchk : u ∈ List.filterMap (fun u2 => alookup (resolveState s env).userUuids u2)
        (allMonitoredList (resolveState s env).monitored) :=
      List.mem_filterMap.2 ⟨X, hXcur, hXu⟩
    have hchk : (List.filterMap (fun u2 => alookup (resolveState s env).userUuids u2)
        (allMonitoredList (resolveState s env).monitored)).isEmpty = false := by
      rw [Bool.eq_false_iff]
      intro hh
      exact (List.ne_nil_of_mem huchk) (List.isEmpty_iff.1 hh)
    simp only [monitorCycle, hempty, hchk, hpres, Bool.false_eq_true, if_false]
    obtain ⟨l1, l2, hpd, hl1k⟩ := alookup_eq_some_split (dedupLast es) u (some "online") hentry
    have hnd2 := nodup_akeys_dedupLast es
    rw [hpd] at hnd2
    have hk := nodup_keys_split l1 l2 u (some "online") hnd2
    have hl1 : ∀ e ∈ l1,
        alookup (reverseMap (resolveState s env).userUuids) e.1 ≠ some X := by
      intro e hel hc
      exact (hl1k e hel) (hinj e.1 hc)
    have hl2 : ∀ e ∈ l2,
        alookup (reverseMap (resolveState s env).userUuids) e.1 ≠ some X := by
      intro e hel hc
      apply hk.2
      rw [← hinj e.1 hc]
      exact List.mem_map.2 ⟨e, hel, rfl⟩
    rw [hpd, List.foldl_append, List.foldl_cons]
    have hfa := fanout_frame (resolveState s env).monitored
      (reverseMap (resolveState s env).userUuids) env.userData X l1
      (resolveState s env) [] [] hl1
    rcases hfold1 : List.foldl (step5fold (resolveState s env).monitored
        (reverseMap (resolveState s env).userUuids) env.userData)
        ((resolveState s env), [], []) l1 with ⟨stA, msgsA, tagsA⟩
    rw [hfold1] at hfa
    have hprevA : (alookup stA.userLastStatus X).join ≠ some "online" := by
      have h1 := hfa.2.1
      rw [show alookup ((stA, msgsA, tagsA).1 : RegState).userLastStatus X
        = alookup stA.userLastStatus X from rfl] at h1
      rw [h1, resolveState_userLastStatus]
      exact hprev
    rw [step5fold_fire (resolveState s env).monitored
      (reverseMap (resolveState s env).userUuids) env.userData stA msgsA tagsA
      u (some "online") X hrev rfl hprevA]
    have hfb := fanout_frame (resolveState s env).monitored
      (reverseMap (resolveState s env).userUuids) env.userData X l2
      { stA with userLastStatus := aset stA.userLastStatus X (some "online") }
      (msgsA ++ (subscribersOf (resolveState s env).monitored X).map (fun uid2 =>
        Notif.mk uid2 X (alookup stA.userLastSeenUnix X).join))
      (tagsA ++ (subscribersOf (resolveState s env).monitored X).map
        (fun _ => NetTag.send)) hl2
    rw [filter_user_chat, hfb.1, msgsFor_append]
    have hmsgsA : msgsFor X msgsA = [] := by
      have h1 := hfa.1
      rw [show ((stA, msgsA, tagsA).2.1 : List Notif) = msgsA from rfl] at h1
      rw [h1, msgsFor_nil]
    rw [hmsgsA, List.nil_append, msgsFor_map_mk_self, filter_chat_map_mk,
      List.length_map, resolveState_monitored,
      count_filter_subscribersOf s.monitored X uid hmonNd]
  · intro s2 env2 es2 hpres2 hst2 hall
    by_cases he2 : (allMonitoredList s2.monitored).isEmpty = true
    · simp [monitorCycle, he2, msgsFor_nil]
    · rw [Bool.not_eq_true] at he2
      by_cases hc2 : (List.filterMap (fun u2 => alookup (resolveState s2 env2).userUuids u2)
          (allMonitoredList (resolveState s2 env2).monitored)).isEmpty = true
      · simp [monitorCycle, he2, hc2, msgsFor_nil]
      · rw [Bool.not_eq_true] at hc2
        simp only [monitorCycle, he2, hc2, hpres2, Bool.false_eq_true, if_false]
        exact fanout_no_fire (resolveState s2 env2).monitored
          (reverseMap (resolveState s2 env2).userUuids) env2.userData X
          (dedupLast es2) (resolveState s2 env2) [] []
          (by rw [resolveState_userLastStatus]; exact hst2) hall

/-- Concrete registry for the C1 witness: `S` watches `x`, `T` watches
`y`; both identities resolved; `x` previously `offline`. -/
def c1State : RegState :=
  ⟨["S", "T"], [], [("S", ["x"]), ("T", ["y"])], [("x", "U"), ("y", "V")],
    [("x", some "offline")], [], none⟩

/-- The same registry after `x` has been observed online. -/
def c1Post : RegState :=
  ⟨["S", "T"], [], [("S", ["x"]), ("T", ["y"])], [("x", "U"), ("y", "V")],
    [("x", some "online")], [], none⟩

/-- A cycle environment reporting `x` online and `y` offline. -/
def c1Env : ApiEnv :=
  ⟨fun _ => ⟨none, none⟩, some [("U", some "online"), ("V", some "offline")]⟩

/-- Witness for C1. -/
theorem c1_witness :
    ((monitorCycle c1State c1Env).notifs.filter
        (fun m => m.username == "x" && m.chatId == "S")).length = 1 ∧
    ((monitorCycle c1State c1Env).notifs.filter
        (fun m => m.username == "x" && m.chatId == "T")).length = 0 ∧
    msgsFor "x" (monitorCycle c1Post c1Env).notifs = [] := by
  have h := c1_online_transition_fires_once c1State c1Env "x" "U"
    [("U", some "online"), ("V", some "offline")] rfl (by decide) (by decide)
    (by decide) (by decide)
    (by
      intro u2 hq
      have hrm : reverseMap (resolveState c1State c1Env).userUuids
          = [("U", "x"), ("V", "y")] := by decide
      rw [hrm] at hq
      simp only [alookup] at hq
      by_cases h1 : "U" = u2
      · exact h1.symm
      · rw [if_neg h1] at hq
        by_cases h2 : "V" = u2
        · rw [if_pos h2] at hq
          exact absurd hq (by decide)
        · rw [if_neg h2] at hq
          exact absurd hq (by decide))
    (by decide) (by decide)
  refine ⟨?_, ?_, ?_⟩
  · rw [h.1 "S"]
    decide
  · rw [h.1 "T"]
    decide
  · exact h.2 c1Post c1Env [("U", some "online"), ("V", some "offline")] rfl
      (by decide) (by decide)

/-- Processing `X`'s presence entry on an `online → not-online`
transition: the last-seen cache is overwritten with the externally
reported value (when truthy), with no comparison to the old value. -/
theorem step5fold_refresh (mon : List (String × List String))
    (rev : List (String × String)) (ud : String → UserData)
    (st : RegState) (msgs : List Notif) (tags : List NetTag)
    (uuid : String) (newStatus : Option String) (X : String) (lo : Int)
    (halo : alookup rev uuid = some X)
    (h1 : newStatus ≠ some "online")
    (h2 : (alookup st.userLastStatus X).join = some "online")
    (hud : (ud X).lastOnlineUnix = some lo)
    (hlo : lo ≠ 0) :
    step5fold mon rev ud (st, msgs, tags) (uuid, newStatus)
      = ({ st with userLastSeenUnix := aset st.userLastSeenUnix X (some lo),
                   userLastStatus := aset st.userLastStatus X newStatus },
        msgs, tags ++ [NetTag.refresh]) := by
  simp only [step5fold, halo]
  rw [if_neg (fun hc => h1 hc.1), if_pos ⟨h1, h2⟩]
  simp [hud, hlo]

/-- Concrete registry for the C7 counterexample: `x` is cached `online`
with last-seen 100. -/
def c7State : RegState :=
  ⟨["S"], [], [("S", ["x"])], [("x", "U")], [("x", some "online")],
    [("x", some 100)], none⟩

/-- A cycle environment reporting `x` offline, with the profile endpoint
returning the earlier timestamp 50. -/
def c7Env : ApiEnv :=
  ⟨fun u2 => if u2 = "x" then ⟨none, some 50⟩ else ⟨none, none⟩,
    some [("U", some "offline")]⟩

/-- C7 counterexample: a live-status-triggered update (the
`online → offline` refresh of lines 260-264) moves `x`'s stored
last-seen backwards, from 100 to 50 — the cache is not monotonic. -/
theorem c7_counterexample :
    (alookup c7State.userLastSeenUnix "x").join = some 100 ∧
    (alookup (monitorCycle c7State c7Env).state.userLastSeenUnix "x").join = some 50 ∧
    (50 : Int) < 100 := by
  decide

/-- C7 (amended): a live-status-triggered last-seen update stores
exactly the externally reported value — a plain overwrite with no
monotonicity guard (updates with an absent or zero reported value are
skipped); in particular the stored value can decrease. -/
theorem c7_last_seen_overwritten (s : RegState) (env : ApiEnv)
    (X u : String) (es : List (String × Option String)) (stat : Option String) (lo : Int)
    (hpres : env.presence = some es)
    (hwatch : ∃ p ∈ s.monitored, X ∈ p.2)
    (hXu : alookup (resolveState s env).userUuids X = some u)
    (hrev : alookup (reverseMap (resolveState s env).userUuids) u = some X)
    (hinj : ∀ u2, alookup (reverseMap (resolveState s env).userUuids) u2 = some X → u2 = u)
    (hentry : alookup (dedupLast es) u = some stat)
    (hstat : stat ≠ some "online")
    (hprev : (alookup s.userLastStatus X).join = some "online")
    (hud : (env.userData X).lastOnlineUnix = some lo)
    (hlo : lo ≠ 0) :
    (alookup (monitorCycle s env).state.userLastSeenUnix X).join = some lo := by
  have hXall : X ∈ allMonitoredList s.monitored := (mem_allMonitoredList _ _).2 hwatch
  have hne : allMonitoredList s.monitored ≠ [] := List.ne_nil_of_mem hXall
  have hempty : (allMonitoredList s.monitored).isEmpty = false := by
    rw [Bool.eq_false_iff]
    intro hh
    exact hne (List.isEmpty_iff.1 hh)
  have hXcur : X ∈ allMonitoredList (resolveState s env).monitored := by
    rw [resolveState_monitored]
    exact hXall
  have huchk : u ∈ List.filterMap (fun u2 => alookup (resolveState s env).userUuids u2)
      (allMonitoredList (resolveState s env).monitored) :=
    List.mem_filterMap.2 ⟨X, hXcur, hXu⟩
  have hchk : (List.filterMap (fun u2 => alookup (resolveState s env).userUuids u2)
      (allMonitoredList (resolveState s env).monitored)).isEmpty = false := by
    rw [Bool.eq_false_iff]
    intro hh
    exact (List.ne_nil_of_mem huchk) (List.isEmpty_iff.1 hh)
  simp only [monitorCycle, hempty, hchk, hpres, Bool.false_eq_true, if_false]
  obtain ⟨l1, l2, hpd, hl1k⟩ := alookup_eq_some_split (dedupLast es) u stat hentry
  have hnd2 := nodup_akeys_dedupLast es
  rw [hpd] at hnd2
  have hk := nodup_keys_split l1 l2 u stat hnd2
  have hl1 : ∀ e ∈ l1,
      alookup (reverseMap (resolveState s env).userUuids) e.1 ≠ some X := by
    intro e hel hc
    exact (hl1k e hel) (hinj e.1 hc)
  have hl2 : ∀ e ∈ l2,
      alookup (reverseMap (resolveState s env).userUuids) e.1 ≠ some X := by
    intro e hel hc
    apply hk.2
    rw [← hinj e.1 hc]
    exact List.mem_map.2 ⟨e, hel, rfl⟩
  rw [hpd, List.foldl_append, List.foldl_cons]
  have hfa := fanout_frame (resolveState s env).monitored
    (reverseMap (resolveState s env).userUuids) env.userData X l1
    (resolveState s env) [] [] hl1
  rcases hfold1 : List.foldl (step5fold (resolveState s env).monitored
      (reverseMap (resolveState s env).userUuids) env.userData)
      ((resolveState s env), [], []) l1 with ⟨stA, msgsA, tagsA⟩
  rw [hfold1] at hfa
  have hprevA : (alookup stA.userLastStatus X).join = some "online" := by
    have h1 := hfa.2.1
    rw [show alookup ((stA, msgsA, tagsA).1 : RegState).userLastStatus X
      = alookup stA.userLastStatus X from rfl] at h1
    rw [h1, resolveState_userLastStatus]
    exact hprev
  rw [step5fold_refresh (resolveState s env).monitored
    (reverseMap (resolveState s env).userUuids) env.userData stA msgsA tagsA
    u stat X lo hrev hstat hprevA hud hlo]
  have hfb := fanout_frame (resolveState s env).monitored
    (reverseMap (resolveState s env).userUuids) env.userData X l2
    { stA with userLastSeenUnix := aset stA.userLastSeenUnix X (some lo),
               userLastStatus := aset stA.userLastStatus X stat }
    msgsA (tagsA ++ [NetTag.refresh]) hl2
  have h2 := hfb.2.2
  rw [h2]
  have hproj : ({ stA with userLastSeenUnix := aset stA.userLastSeenUnix X (some lo), userLastStatus := aset stA.userLastStatus X stat } : RegState).userLastSeenUnix = aset stA.userLastSeenUnix X (some lo) := rfl
  rw [hproj, alookup_aset_self]
  rfl

/-- Witness for the amended C7. -/
theorem c7_witness :
    (alookup (monitorCycle c7State c7Env).state.userLastSeenUnix "x").join = some 50 := by
  have h := c7_last_seen_overwritten c7State c7Env "x" "U"
    [("U", some "offline")] (some "offline") 50 rfl (by decide) (by decide) (by decide)
    (by
      intro u2 hq
      have hrm : reverseMap (resolveState c7State c7Env).userUuids = [("U", "x")] := by
        decide
      rw [hrm] at hq
      simp only [alookup] at hq
      by_cases h1 : "U" = u2
      · exact h1.symm
      · rw [if_neg h1] at hq
        exact absurd hq (by decide))
    (by decide) (by decide) (by decide) (by decide) (by decide)
  exact h
